import Mathlib

/-
  Verification development for the acht concurrency library.

  The repository consists of header-only C++ components:
    - SyncQueue.hpp: a bounded blocking FIFO queue guarded by one mutex and
      two condition variables, with a stop/start lifecycle.
    - ThreadPool.hpp: a fixed set of worker threads pulling tasks from a
      SyncQueue.
    - Logger.hpp: an asynchronous level-filtered logger draining a
      SyncQueue of formatted records on a dedicated writer thread.
    - MessageQueue.hpp, SynchronousQueue.hpp: earlier draft variants.

  The embedding below is shallow: each critical section of the C++ code
  (every public operation takes the single mutex for its whole body) is
  one atomic transition on an explicit state record.  A blocking call that
  cannot currently return is modelled by the value none; a call that
  returns is modelled by some of its result.  Condition-variable wakes are
  recorded as explicit events so that the presence or absence of a wake
  invocation in the source is visible in the model.
-/

namespace Acht

/-- The two condition variables of a queue: not_empty and not_full. -/
inductive CV
  | notEmpty
  | notFull
  deriving DecidableEq, Repr

/-- A condition-variable wake actually invoked by the code. -/
inductive WakeEvent
  | notifyOne (cv : CV)
  | notifyAll (cv : CV)
  deriving DecidableEq, Repr

/-- C++ conversion of a signed int to size_t, as performed by the usual
arithmetic conversions in the comparison my_queue.size() == queue_max_size. -/
def intToSizeT (n : Int) : Nat := (n % (2 ^ 64)).toNat

/-- State of SyncQueue (SyncQueue.hpp): the protected data under the mutex.
my_queue holds the elements front first; queue_max_size is a C++ int. -/
structure SyncQueue (T : Type) where
  my_queue : List T
  queue_max_size : Int
  need_to_stop : Bool
  deriving DecidableEq, Repr

namespace SyncQueue

variable {T : Type}

/-- full() at SyncQueue.hpp lines 41 to 43: size() == queue_max_size, a
size_t versus int comparison, hence exact equality after conversion. -/
def full (s : SyncQueue T) : Bool :=
  s.my_queue.length == intToSizeT s.queue_max_size

/-- empty() at SyncQueue.hpp lines 48 to 50. -/
def emptyq (s : SyncQueue T) : Bool :=
  s.my_queue.length == 0

/-- Result of a put call that returned: the new state, whether the element
was inserted, and the wake invocations performed. -/
structure PutResult (T : Type) where
  state : SyncQueue T
  inserted : Bool
  events : List WakeEvent
  deriving DecidableEq, Repr

/-- putHelper at SyncQueue.hpp lines 25 to 36.  The wait loop runs while
not stopped and full; none models the call being unable to return at this
state (it is parked in not_full.wait).  If stopped, the call returns
without inserting.  Otherwise it appends at the tail and invokes
not_empty.notify_one(). -/
def putHelper (s : SyncQueue T) (elem : T) : Option (PutResult T) :=
  if !s.need_to_stop && s.full then
    none
  else if s.need_to_stop then
    some ⟨s, false, []⟩
  else
    some ⟨⟨s.my_queue ++ [elem], s.queue_max_size, s.need_to_stop⟩, true,
      [WakeEvent.notifyOne CV.notEmpty]⟩

/-- The condition under which a put call is currently parked in the wait
loop of putHelper: not stopped and full. -/
def putBlocks (s : SyncQueue T) : Bool :=
  !s.need_to_stop && s.full

/-- The state effect of a put call in a single-threaded run: a parked call
performs no mutation. -/
def putT (s : SyncQueue T) (elem : T) : SyncQueue T :=
  ((s.putHelper elem).map PutResult.state).getD s

/-- Result of a take call that returned: new state, the element written to
the out parameter (none when the call returned false and left it alone),
the boolean return value, and the wake invocations performed. -/
structure TakeResult (T : Type) where
  state : SyncQueue T
  value : Option T
  success : Bool
  events : List WakeEvent
  deriving DecidableEq, Repr

/-- take at SyncQueue.hpp lines 85 to 107.  In blocking mode the wait loop
runs while not stopped and empty (none models the parked call).  In
non-blocking mode an empty queue returns false at once.  After the wait
region, a stopped queue returns false BEFORE any element is taken; only
then is the head removed and not_full.notify_one() invoked. -/
def take (s : SyncQueue T) (blocking : Bool) : Option (TakeResult T) :=
  if blocking && (!s.need_to_stop && s.emptyq) then
    none
  else if !blocking && s.emptyq then
    some ⟨s, none, false, []⟩
  else if s.need_to_stop then
    some ⟨s, none, false, []⟩
  else
    match s.my_queue with
    | [] => some ⟨s, none, false, []⟩
    | x :: rest =>
        some ⟨⟨rest, s.queue_max_size, s.need_to_stop⟩, some x, true,
          [WakeEvent.notifyOne CV.notFull]⟩

/-- Result of a takeAll call that returned: new state, the content of the
caller-supplied queue after the call, the boolean return value, and the
wake invocations performed. -/
structure TakeAllResult (T : Type) where
  state : SyncQueue T
  other_queue : List T
  success : Bool
  events : List WakeEvent
  deriving DecidableEq, Repr

/-- takeAll at SyncQueue.hpp lines 116 to 137.  Same wait structure as
take; on success the move assignment other_queue = std::move(my_queue)
replaces the caller queue with the whole internal sequence and leaves the
internal queue empty (libstdc++ and libc++ deque move assignment steals
the buffer), then not_full.notify_one() is invoked. -/
def takeAll (s : SyncQueue T) (other_queue : List T) (blocking : Bool) :
    Option (TakeAllResult T) :=
  if blocking && (!s.need_to_stop && s.emptyq) then
    none
  else if !blocking && s.emptyq then
    some ⟨s, other_queue, false, []⟩
  else if s.need_to_stop then
    some ⟨s, other_queue, false, []⟩
  else
    some ⟨⟨[], s.queue_max_size, s.need_to_stop⟩, s.my_queue, true,
      [WakeEvent.notifyOne CV.notFull]⟩

/-- start at SyncQueue.hpp lines 142 to 148. -/
def start (s : SyncQueue T) : SyncQueue T :=
  if s.need_to_stop then ⟨s.my_queue, s.queue_max_size, false⟩ else s

/-- stop at SyncQueue.hpp lines 153 to 162: idempotent; on the effective
transition both condition variables get notify_all. -/
def stop (s : SyncQueue T) : SyncQueue T × List WakeEvent :=
  if !s.need_to_stop then
    (⟨s.my_queue, s.queue_max_size, true⟩,
      [WakeEvent.notifyAll CV.notFull, WakeEvent.notifyAll CV.notEmpty])
  else
    (s, [])

/-- getSize at SyncQueue.hpp lines 165 to 168. -/
def getSize (s : SyncQueue T) : Int := s.my_queue.length

/-- isFull at SyncQueue.hpp lines 171 to 174. -/
def isFull (s : SyncQueue T) : Bool :=
  s.my_queue.length == intToSizeT s.queue_max_size

/-- isEmpty at SyncQueue.hpp lines 177 to 180. -/
def isEmpty (s : SyncQueue T) : Bool :=
  s.my_queue.length == 0

/-- getMaxSize at SyncQueue.hpp lines 183 to 186. -/
def getMaxSize (s : SyncQueue T) : Int := s.queue_max_size

/-- setMaxSize at SyncQueue.hpp lines 189 to 192: assigns the field, no
other effect (no eviction, no wake). -/
def setMaxSize (s : SyncQueue T) (maxSize : Int) : SyncQueue T :=
  ⟨s.my_queue, maxSize, s.need_to_stop⟩

/-- clear at SyncQueue.hpp lines 195 to 200: pops every element. -/
def clear (s : SyncQueue T) : SyncQueue T :=
  ⟨[], s.queue_max_size, s.need_to_stop⟩

end SyncQueue

/-- One operation of the SyncQueue public interface, for sequential runs. -/
inductive QOp (T : Type)
  | putOp (x : T)
  | takeOp (blocking : Bool)
  | takeAllOp (blocking : Bool)
  | clearOp
  | stopOp
  | startOp
  | setMaxSizeOp (m : Int)
  deriving DecidableEq, Repr

/-- The state effect of one operation in a single-threaded run: a call
that cannot return (parked in a wait) performs no mutation. -/
def applyQOp {T : Type} (s : SyncQueue T) : QOp T → SyncQueue T
  | QOp.putOp x => s.putT x
  | QOp.takeOp b => ((s.take b).map SyncQueue.TakeResult.state).getD s
  | QOp.takeAllOp b => ((s.takeAll [] b).map SyncQueue.TakeAllResult.state).getD s
  | QOp.clearOp => s.clear
  | QOp.stopOp => (s.stop).1
  | QOp.startOp => s.start
  | QOp.setMaxSizeOp m => s.setMaxSize m

/-- Run a sequence of operations from a starting state. -/
def runOps {T : Type} (s : SyncQueue T) (ops : List (QOp T)) : SyncQueue T :=
  ops.foldl applyQOp s

/-- State of the draft MessageQueue (MessageQueue.hpp): elements and the
capacity bound; this draft has no stop flag. -/
structure MessageQueue (T : Type) where
  myQueue : List T
  queueMaxSize : Int
  deriving DecidableEq, Repr

namespace MessageQueue

variable {T : Type}

/-- IsFull at MessageQueue.hpp lines 60 to 63. -/
def IsFull (s : MessageQueue T) : Bool :=
  s.myQueue.length == intToSizeT s.queueMaxSize

/-- IsEmpty at MessageQueue.hpp lines 65 to 68. -/
def IsEmpty (s : MessageQueue T) : Bool :=
  s.myQueue.length == 0

/-- Push at MessageQueue.hpp lines 30 to 37.  The wait loop runs while
IsFull (none models the parked call).  The statement at line 36 is
notEmpty.notify_one without parentheses: the member function is merely
named, never invoked, so a successful Push performs NO wake invocation
and the returned event list is empty. -/
def Push (s : MessageQueue T) (msg : T) : Option (MessageQueue T × List WakeEvent) :=
  if s.IsFull then
    none
  else
    some (⟨s.myQueue ++ [msg], s.queueMaxSize⟩, [])

end MessageQueue

/-
  ThreadPool (ThreadPool.hpp).  The pool owns an atomic shutdown flag, a
  SyncQueue of tasks and worker threads running run() at lines 24 to 31:
  while the shutdown flag is unset, take a task (blocking) and execute it.

  Two models are used.  For claim C2 the concrete spec scenario (two
  workers, capacity one, five no-op tasks submitted by the main thread
  followed by shutdownNow) is an interleaving model: each shared-memory
  action is one labelled transition.  For claim C6 a single worker is run
  sequentially over a queue of tasks that may raise.
-/

/-- A task for the C6 model: an identifier and whether running it raises
an unhandled failure.  The pool stores tasks opaquely; only the outcome of
the call task() matters to run(). -/
structure TaskSpec where
  id : Nat
  fails : Bool
  deriving DecidableEq, Repr

/-- The worker loop run() at ThreadPool.hpp lines 24 to 31, for one worker
with the shutdown flag held false (no other thread flips it in this
scenario), executed sequentially with fuel.  The loop body has no handler
around task(): an unhandled failure propagates out of run() and the
worker terminates (second component true).  A parked take (empty queue,
not stopped, no producer) ends the run with the loop still alive.
Returns (ids executed in order, crashed, final queue state). -/
def runWorkerLoop : Nat → SyncQueue TaskSpec → List Nat × Bool × SyncQueue TaskSpec
  | 0, s => ([], false, s)
  | fuel + 1, s =>
    match s.take true with
    | none => ([], false, s)
    | some r =>
      match r.value with
      | some t =>
        if t.fails then
          ([t.id], true, r.state)
        else
          let rest := runWorkerLoop fuel r.state
          (t.id :: rest.1, rest.2.1, rest.2.2)
      | none => runWorkerLoop fuel r.state

/-- Control state of one worker thread in the C2 interleaving model:
about to test the shutdown flag, about to call take, holding a task it is
executing, or exited from run(). -/
inductive WState
  | atLoop
  | atTake
  | exec (tid : Nat)
  | exited
  deriving DecidableEq, Repr

/-- Control state of the main thread in the C2 scenario: submitting the
remaining task ids, then inside shutdownNow (set the flag, stop the
queue, join worker one, join worker two), then returned. -/
inductive MState
  | submitting (rest : List Nat)
  | stopFlag
  | stopQueue
  | joining1
  | joining2
  | done
  deriving DecidableEq, Repr

/-- Shared state of the C2 scenario: the atomic shutdown flag, the task
queue myTasks, both worker control states, the main thread control state,
and the log of executed task ids in execution order. -/
structure PoolState where
  shutdown : Bool
  tasks : SyncQueue Nat
  w1 : WState
  w2 : WState
  mainT : MState
  executed : List Nat
  deriving DecidableEq, Repr

/-- Thread identifiers of the C2 scenario. -/
inductive Tid
  | mainT
  | w1T
  | w2T
  deriving DecidableEq, Repr

/-- One transition of a worker thread: test the flag (run() line 25), the
take call (line 27, parked when it cannot return), or the task body
(line 28, a no-op task that only logs its execution). -/
def workerStep (sh : Bool) (q : SyncQueue Nat) (w : WState) (ex : List Nat) :
    Option (SyncQueue Nat × WState × List Nat) :=
  match w with
  | WState.atLoop => some (q, if sh then WState.exited else WState.atTake, ex)
  | WState.atTake =>
    match q.take true with
    | none => none
    | some r =>
      match r.value with
      | some t => some (r.state, WState.exec t, ex)
      | none => some (r.state, WState.atLoop, ex)
  | WState.exec t => some (q, WState.atLoop, ex ++ [t])
  | WState.exited => none

/-- One transition of the main thread at a given control state: submit
(ThreadPool.hpp line 63, a blocking put parked when it cannot return),
then shutdownNow at lines 89 to 103: set the flag, stop the queue, join
each worker (a join returns only once that worker has exited). -/
def mainGo (p : PoolState) : MState → Option PoolState
  | MState.submitting [] => some { p with mainT := MState.stopFlag }
  | MState.submitting (k :: rest2) =>
    match p.tasks.putHelper k with
    | none => none
    | some r => some { p with tasks := r.state, mainT := MState.submitting rest2 }
  | MState.stopFlag => some { p with shutdown := true, mainT := MState.stopQueue }
  | MState.stopQueue => some { p with tasks := (p.tasks.stop).1, mainT := MState.joining1 }
  | MState.joining1 =>
    if p.w1 = WState.exited then some { p with mainT := MState.joining2 } else none
  | MState.joining2 =>
    if p.w2 = WState.exited then some { p with mainT := MState.done } else none
  | MState.done => none

/-- One transition of the main thread. -/
def mainStep (p : PoolState) : Option PoolState :=
  mainGo p p.mainT

/-- One labelled transition of the C2 scenario. -/
def step (p : PoolState) : Tid → Option PoolState
  | Tid.mainT => mainStep p
  | Tid.w1T =>
    (workerStep p.shutdown p.tasks p.w1 p.executed).map
      (fun r => { p with tasks := r.1, w1 := r.2.1, executed := r.2.2 })
  | Tid.w2T =>
    (workerStep p.shutdown p.tasks p.w2 p.executed).map
      (fun r => { p with tasks := r.1, w2 := r.2.1, executed := r.2.2 })

/-- Run a schedule: at each entry the named thread takes its next step if
it can; a thread that is parked or finished leaves the state unchanged. -/
def runTrace (p : PoolState) (ts : List Tid) : PoolState :=
  ts.foldl (fun q t => ((step q t).getD q)) p

/-- Initial state of the C2 scenario: pool of two workers with queue
capacity one, main thread about to submit the five no-op tasks. -/
def poolInit : PoolState :=
  ⟨false, ⟨[], 1, false⟩, WState.atLoop, WState.atLoop,
    MState.submitting [1, 2, 3, 4, 5], []⟩

/-
  Logger (Logger.hpp).  The logger holds a severity threshold my_level, a
  SyncQueue of formatted records, the stored log file path and the file
  stream handle.  The file system is abstracted by an environment telling
  which paths can be opened; an open stream is modelled by the path it
  writes to, a null shared_ptr by none.
-/

/-- Level at Logger.hpp lines 27 to 33: an enum class whose ordinals
follow declaration order, FATAL = 0 up to DEBUG = 4. -/
inductive Level
  | FATAL
  | ERROR
  | WARN
  | INFO
  | DEBUG
  deriving DecidableEq, Repr

/-- The underlying integral value of a Level, as used by the comparison
level > my_level in write. -/
def Level.toNat : Level → Nat
  | Level.FATAL => 0
  | Level.ERROR => 1
  | Level.WARN => 2
  | Level.INFO => 3
  | Level.DEBUG => 4

/-- levelToString at Logger.hpp lines 212 to 225. -/
def levelToString : Level → String
  | Level.FATAL => "FATAL"
  | Level.ERROR => "ERROR"
  | Level.WARN => "WARN"
  | Level.INFO => "INFO"
  | Level.DEBUG => "DEBUG"

/-- The record built by write at Logger.hpp lines 77 to 80: current time,
bracketed level name, message.  The current time is passed in, getCurrentTime
being a read of the wall clock. -/
def mkLogRecord (now : String) (level : Level) (msg : String) : String :=
  now ++ " [" ++ levelToString level ++ "] " ++ msg

/-- State of a Logger instance: threshold, record queue, stored file path
and the open stream (none when the shared_ptr is null). -/
structure Logger where
  my_level : Level
  log_queue : SyncQueue String
  my_log_file_path : String
  log_file_stream : Option String
  deriving DecidableEq, Repr

/-- The file system environment: which paths open successfully in append
mode. -/
structure FileEnv where
  openOk : String → Bool

namespace Logger

/-- write at Logger.hpp lines 72 to 84: if level > my_level return at
once; otherwise format the record and put it on the log queue (the state
effect of that blocking put). -/
def write (lg : Logger) (now : String) (level : Level) (log_msg : String) : Logger :=
  if level.toNat > lg.my_level.toNat then
    lg
  else
    { lg with log_queue := lg.log_queue.putT (mkLogRecord now level log_msg) }

/-- setLevel at Logger.hpp lines 90 to 92. -/
def setLevel (lg : Logger) (level : Level) : Logger :=
  { lg with my_level := level }

/-- getLevel at Logger.hpp lines 97 to 99. -/
def getLevel (lg : Logger) : Level := lg.my_level

/-- setFileStream at Logger.hpp lines 182 to 193: open the path in append
mode; on failure reset the stream pointer to null and return false. -/
def setFileStream (env : FileEnv) (lg : Logger) (log_file_path : String) :
    Logger × Bool :=
  if env.openOk log_file_path then
    ({ lg with log_file_stream := some log_file_path }, true)
  else
    ({ lg with log_file_stream := none }, false)

/-- setLogFilePath at Logger.hpp lines 138 to 147: under the lock, return
true if the path is unchanged; otherwise FIRST assign the stored path,
THEN attempt to open the stream at the new path. -/
def setLogFilePath (env : FileEnv) (lg : Logger) (log_file_path : String) :
    Logger × Bool :=
  if lg.my_log_file_path == log_file_path then
    (lg, true)
  else
    setFileStream env { lg with my_log_file_path := log_file_path } log_file_path

/-- getLogFilePath at Logger.hpp lines 152 to 155. -/
def getLogFilePath (lg : Logger) : String := lg.my_log_file_path

/-- One iteration of runWriteThread at Logger.hpp lines 200 to 207: a
blocking take from the log queue (none when parked); when the take
succeeds AND the stream pointer is non-null the record is appended to the
file, otherwise nothing is written and the record is gone. -/
def runWriteIter (lg : Logger) : Option (Logger × List (String × String)) :=
  match lg.log_queue.take true with
  | none => none
  | some r =>
    match r.value, lg.log_file_stream with
    | some log, some f => some ({ lg with log_queue := r.state }, [(f, log)])
    | some _, none => some ({ lg with log_queue := r.state }, [])
    | none, _ => some ({ lg with log_queue := r.state }, [])

end Logger

/-
  Theorems.
-/

/-- For a C++ int value in range, the size_t conversion is the identity. -/
theorem intToSizeT_eq_toNat {m : Int} (h0 : 0 ≤ m) (h1 : m < 2 ^ 64) :
    intToSizeT m = m.toNat := by
  unfold intToSizeT
  rw [Int.emod_eq_of_lt h0 h1]

/-- Claim C1 (amended): after stop() every subsequent put returns without
inserting, and every take, blocking or not, returns false without removing
any element, even when the queue is non-empty; the elements stay in the
queue.  The take branch refutes the frozen claim that take keeps
succeeding on a non-empty stopped queue. -/
theorem c1_stopped_put_drops_take_fails {T : Type} (s : SyncQueue T) (x : T)
    (blocking : Bool) (h : s.need_to_stop = true) :
    s.putHelper x = some ⟨s, false, []⟩ ∧
    s.take blocking = some ⟨s, none, false, []⟩ := by
  constructor
  · simp [SyncQueue.putHelper, h]
  · simp [SyncQueue.take, h]

/-- Witness for C1: a concrete stopped queue holding one element. -/
theorem c1_witness :
    (⟨[3], 4, true⟩ : SyncQueue Nat).need_to_stop = true ∧
    ((⟨[3], 4, true⟩ : SyncQueue Nat).putHelper 9 =
        some ⟨⟨[3], 4, true⟩, false, []⟩ ∧
      (⟨[3], 4, true⟩ : SyncQueue Nat).take true =
        some ⟨⟨[3], 4, true⟩, none, false, []⟩) :=
  ⟨rfl, c1_stopped_put_drops_take_fails (⟨[3], 4, true⟩ : SyncQueue Nat) 9 true rfl⟩

/-- Reachable state for the C1 counterexample: put 7 on an empty queue of
capacity 5, then stop. -/
def c1State : SyncQueue Nat :=
  runOps ⟨[], 5, false⟩ [QOp.putOp 7, QOp.stopOp]

/-- Claim C1, counterexample: on the stopped queue still holding element
7, take returns false and removes nothing, contradicting the claim that
take on a non-empty queue still succeeds until drained after stop(). -/
theorem c1_counterexample :
    c1State.my_queue = [7] ∧ c1State.need_to_stop = true ∧
    c1State.take true = some ⟨c1State, none, false, []⟩ := by
  refine ⟨rfl, rfl, rfl⟩

/-- Claim C7: the canonical queue invokes the not-empty wake on every
successful put, but the draft MessageQueue does not.  SyncQueue putHelper
emits the notify-one invocation on the not_empty condition variable; the
successful Push of MessageQueue emits no wake event at all, because line
36 of MessageQueue.hpp merely names notify_one without invoking it.
Evaluated at the failing input: Push of 42 on an empty draft queue of
capacity one. -/
theorem c7_push_wake_comparison :
    MessageQueue.Push (⟨[], 1⟩ : MessageQueue Nat) 42 = some (⟨[42], 1⟩, []) ∧
    (⟨[], 1, false⟩ : SyncQueue Nat).putHelper 42 =
      some ⟨⟨[42], 1, false⟩, true, [WakeEvent.notifyOne CV.notEmpty]⟩ :=
  ⟨rfl, rfl⟩

/-- Claim C8: whenever takeAll returns true it has moved the whole
internal sequence, in order, into the caller-supplied queue, and the
internal queue is left empty with its capacity and stop flag unchanged. -/
theorem c8_takeAll_moves_all {T : Type} (s : SyncQueue T) (oq : List T)
    (b : Bool) (r : SyncQueue.TakeAllResult T)
    (h : s.takeAll oq b = some r) (hs : r.success = true) :
    r.other_queue = s.my_queue ∧ r.state.my_queue = [] ∧
    r.state.queue_max_size = s.queue_max_size ∧
    r.state.need_to_stop = s.need_to_stop := by
  unfold SyncQueue.takeAll at h
  split at h
  · exact absurd h (by simp)
  · split at h
    · simp only [Option.some.injEq] at h
      subst h
      simp at hs
    · split at h
      · simp only [Option.some.injEq] at h
        subst h
        simp at hs
      · simp only [Option.some.injEq] at h
        subst h
        exact ⟨rfl, rfl, rfl, rfl⟩

/-- Witness for C8 at a concrete call: takeAll on a running queue holding
two elements. -/
theorem c8_witness :
    (SyncQueue.TakeAllResult.mk (⟨[], 3, false⟩ : SyncQueue Nat) [1, 2] true
        [WakeEvent.notifyOne CV.notFull]).other_queue =
      (⟨[1, 2], 3, false⟩ : SyncQueue Nat).my_queue ∧
    (⟨[], 3, false⟩ : SyncQueue Nat).my_queue = [] ∧
    (⟨[], 3, false⟩ : SyncQueue Nat).queue_max_size =
      (⟨[1, 2], 3, false⟩ : SyncQueue Nat).queue_max_size ∧
    (⟨[], 3, false⟩ : SyncQueue Nat).need_to_stop =
      (⟨[1, 2], 3, false⟩ : SyncQueue Nat).need_to_stop :=
  c8_takeAll_moves_all (⟨[1, 2], 3, false⟩ : SyncQueue Nat) [9] true _ rfl rfl

/-- Claim C9 (amended): setMaxSize(n) followed by getMaxSize() returns n,
and reducing the capacity below the current length evicts nothing; but a
subsequent put does NOT block: full() compares size and maxSize by exact
equality, so with size strictly above the bound the put proceeds and
appends immediately. -/
theorem c9_setMaxSize_roundtrip_put_proceeds (s : SyncQueue Nat) (n : Int)
    (x : Nat) (hstop : s.need_to_stop = false)
    (hlt : intToSizeT n < s.my_queue.length) :
    (s.setMaxSize n).getMaxSize = n ∧
    (s.setMaxSize n).my_queue = s.my_queue ∧
    (s.setMaxSize n).putBlocks = false ∧
    (s.setMaxSize n).putHelper x =
      some ⟨⟨s.my_queue ++ [x], n, false⟩, true,
        [WakeEvent.notifyOne CV.notEmpty]⟩ := by
  have hne : s.my_queue.length ≠ intToSizeT n := by omega
  have hfull : (s.setMaxSize n).full = false := by
    simp [SyncQueue.full, SyncQueue.setMaxSize, hne]
  refine ⟨rfl, rfl, ?_, ?_⟩
  · simp [SyncQueue.putBlocks, hfull]
  · simp [SyncQueue.putHelper, SyncQueue.setMaxSize, SyncQueue.full, hstop, hne]

/-- Witness for C9: queue holding three elements, capacity reduced to 2,
put of 40 returns and inserts. -/
theorem c9_witness :
    ((⟨[10, 20, 30], 3, false⟩ : SyncQueue Nat).setMaxSize 2).getMaxSize = 2 ∧
    ((⟨[10, 20, 30], 3, false⟩ : SyncQueue Nat).setMaxSize 2).my_queue =
      (⟨[10, 20, 30], 3, false⟩ : SyncQueue Nat).my_queue ∧
    ((⟨[10, 20, 30], 3, false⟩ : SyncQueue Nat).setMaxSize 2).putBlocks = false ∧
    ((⟨[10, 20, 30], 3, false⟩ : SyncQueue Nat).setMaxSize 2).putHelper 40 =
      some ⟨⟨[10, 20, 30, 40], 2, false⟩, true,
        [WakeEvent.notifyOne CV.notEmpty]⟩ :=
  c9_setMaxSize_roundtrip_put_proceeds ⟨[10, 20, 30], 3, false⟩ 2 40 rfl
    (by decide)

/-- Reachable state for the C9 counterexample: three puts into a queue of
capacity 3, then setMaxSize 2. -/
def c9State : SyncQueue Nat :=
  runOps ⟨[], 3, false⟩
    [QOp.putOp 10, QOp.putOp 20, QOp.putOp 30, QOp.setMaxSizeOp 2]

/-- Claim C9, counterexample: after reducing the capacity to 2 below the
current length 3, a put call does not block; it returns and inserts,
contradicting the claim that future puts block until the length drops
under the new bound. -/
theorem c9_counterexample :
    c9State.getMaxSize = 2 ∧ c9State.my_queue = [10, 20, 30] ∧
    c9State.putBlocks = false ∧
    (c9State.putT 40).my_queue = [10, 20, 30, 40] := by
  refine ⟨rfl, rfl, ?_, ?_⟩ <;> decide

/-- Claim C10: setLogFilePath stores the new path before attempting the
open, so when opening fails it returns false, the stream pointer is reset
to null (subsequent writer iterations append nothing to any file), and yet
getLogFilePath returns the new, failed path. -/
theorem c10_failed_path_is_stored (env : FileEnv) (lg : Logger) (p : String)
    (hne : lg.my_log_file_path ≠ p) (hfail : env.openOk p = false) :
    (Logger.setLogFilePath env lg p).2 = false ∧
    (Logger.setLogFilePath env lg p).1.log_file_stream = none ∧
    Logger.getLogFilePath (Logger.setLogFilePath env lg p).1 = p ∧
    (∀ lg2 out,
      Logger.runWriteIter (Logger.setLogFilePath env lg p).1 = some (lg2, out) →
        out = []) := by
  have hb : (lg.my_log_file_path == p) = false := by
    simp [hne]
  have hres : Logger.setLogFilePath env lg p =
      ({ lg with my_log_file_path := p, log_file_stream := none }, false) := by
    simp [Logger.setLogFilePath, hb, Logger.setFileStream, hfail]
  refine ⟨by rw [hres], by rw [hres], by rw [hres]; rfl, ?_⟩
  intro lg2 out h
  rw [hres] at h
  unfold Logger.runWriteIter at h
  split at h
  · exact absurd h (by simp)
  · split at h
    · simp_all
    · simp only [Option.some.injEq, Prod.mk.injEq] at h
      exact h.2.symm
    · simp only [Option.some.injEq, Prod.mk.injEq] at h
      exact h.2.symm

/-- Witness for C10: every open fails in the environment; repointing the
logger from out.log to new.log returns false, unsets the stream and still
stores new.log. -/
theorem c10_witness :
    (Logger.setLogFilePath ⟨fun _ => false⟩
        ⟨Level.DEBUG, ⟨[], 100, false⟩, "out.log", none⟩ "new.log").2 = false ∧
    (Logger.setLogFilePath ⟨fun _ => false⟩
        ⟨Level.DEBUG, ⟨[], 100, false⟩, "out.log", none⟩ "new.log").1.log_file_stream
      = none ∧
    Logger.getLogFilePath
        (Logger.setLogFilePath ⟨fun _ => false⟩
          ⟨Level.DEBUG, ⟨[], 100, false⟩, "out.log", none⟩ "new.log").1 =
      "new.log" ∧
    (∀ lg2 out,
      Logger.runWriteIter
          (Logger.setLogFilePath ⟨fun _ => false⟩
            ⟨Level.DEBUG, ⟨[], 100, false⟩, "out.log", none⟩ "new.log").1 =
        some (lg2, out) → out = []) :=
  c10_failed_path_is_stored ⟨fun _ => false⟩
    ⟨Level.DEBUG, ⟨[], 100, false⟩, "out.log", none⟩ "new.log"
    (by decide) rfl

/-- Claim C4: write(level, message) enqueues exactly one record when
level is at most the threshold and leaves the logger unchanged when level
is strictly greater, and the severity ordinals are FATAL below ERROR below
WARN below INFO below DEBUG, FATAL being the smallest.  Stated for a
running, non-full log queue, where the put returns and inserts. -/
theorem c4_write_level_filter (lg : Logger) (now : String) (lv : Level)
    (msg : String) (h1 : lg.log_queue.need_to_stop = false)
    (h2 : lg.log_queue.full = false) :
    ((Logger.write lg now lv msg).log_queue.my_queue =
      if lv.toNat ≤ lg.my_level.toNat then
        lg.log_queue.my_queue ++ [mkLogRecord now lv msg]
      else lg.log_queue.my_queue) ∧
    (lv.toNat > lg.my_level.toNat → Logger.write lg now lv msg = lg) ∧
    (Level.FATAL.toNat < Level.ERROR.toNat ∧
      Level.ERROR.toNat < Level.WARN.toNat ∧
      Level.WARN.toNat < Level.INFO.toNat ∧
      Level.INFO.toNat < Level.DEBUG.toNat) := by
  refine ⟨?_, ?_, by decide⟩
  · unfold Logger.write
    by_cases hc : lv.toNat > lg.my_level.toNat
    · rw [if_pos hc, if_neg (by omega)]
    · rw [if_neg hc, if_pos (by omega)]
      simp [SyncQueue.putT, SyncQueue.putHelper, h1, h2]
  · intro hgt
    simp [Logger.write, hgt]

/-- Witness for C4: threshold WARN, a DEBUG message is ignored while an
ERROR message is enqueued; evaluated through the theorem at the ERROR
instance. -/
theorem c4_witness :
    ((Logger.write ⟨Level.WARN, ⟨[], 100, false⟩, "out.log", some "out.log"⟩
        "t0" Level.ERROR "y").log_queue.my_queue =
      if Level.ERROR.toNat ≤ Level.WARN.toNat then
        ([] : List String) ++ [mkLogRecord "t0" Level.ERROR "y"]
      else ([] : List String)) ∧
    (Level.ERROR.toNat > Level.WARN.toNat →
      Logger.write ⟨Level.WARN, ⟨[], 100, false⟩, "out.log", some "out.log"⟩
        "t0" Level.ERROR "y" =
        ⟨Level.WARN, ⟨[], 100, false⟩, "out.log", some "out.log"⟩) ∧
    (Level.FATAL.toNat < Level.ERROR.toNat ∧
      Level.ERROR.toNat < Level.WARN.toNat ∧
      Level.WARN.toNat < Level.INFO.toNat ∧
      Level.INFO.toNat < Level.DEBUG.toNat) :=
  c4_write_level_filter ⟨Level.WARN, ⟨[], 100, false⟩, "out.log", some "out.log"⟩
    "t0" Level.ERROR "y" rfl rfl

/-- A sequence of put calls in a single-threaded run. -/
def putAll {T : Type} (s : SyncQueue T) (xs : List T) : SyncQueue T :=
  xs.foldl SyncQueue.putT s

/-- A sequence of take calls in a single-threaded run, collecting the
elements returned through the out parameter. -/
def takeN {T : Type} : SyncQueue T → Nat → SyncQueue T × List T
  | s, 0 => (s, [])
  | s, n + 1 =>
    match s.take true with
    | none => (s, [])
    | some r =>
      match r.value with
      | none => (r.state, [])
      | some x =>
        let p := takeN r.state n
        (p.1, x :: p.2)

/-- Puts below capacity all insert, appending in order. -/
theorem putAll_below_capacity {T : Type} (xs : List T) (s : SyncQueue T)
    (hstop : s.need_to_stop = false) (h0 : 0 ≤ s.queue_max_size)
    (h1 : s.queue_max_size < 2 ^ 64)
    (hlen : s.my_queue.length + xs.length ≤ s.queue_max_size.toNat) :
    putAll s xs = ⟨s.my_queue ++ xs, s.queue_max_size, false⟩ := by
  induction xs generalizing s with
  | nil =>
    cases s
    simp_all [putAll]
  | cons x rest ih =>
    have hsz := intToSizeT_eq_toNat h0 h1
    have hne : s.my_queue.length ≠ intToSizeT s.queue_max_size := by
      rw [hsz]
      simp at hlen
      omega
    have hstep : s.putT x = ⟨s.my_queue ++ [x], s.queue_max_size, false⟩ := by
      simp [SyncQueue.putT, SyncQueue.putHelper, SyncQueue.full, hstop, hne]
    show putAll (s.putT x) rest = _
    rw [hstep, ih ⟨s.my_queue ++ [x], s.queue_max_size, false⟩ rfl h0 h1
      (by simp at hlen ⊢; omega)]
    simp

/-- Takes from a running queue return the whole content in order. -/
theorem takeN_drains {T : Type} (xs : List T) (m : Int) :
    takeN (⟨xs, m, false⟩ : SyncQueue T) xs.length = (⟨[], m, false⟩, xs) := by
  induction xs with
  | nil => rfl
  | cons x rest ih =>
    show takeN ⟨x :: rest, m, false⟩ (rest.length + 1) = _
    simp only [takeN, SyncQueue.take, SyncQueue.emptyq]
    simp [ih]

/-- Claim C3: for every sequence of puts that does not exceed the
capacity, followed by equally many takes, the takes return the items in
exactly the order they were put (strict FIFO), draining the queue. -/
theorem c3_fifo (xs : List Nat) (m : Int) (h0 : 0 ≤ m) (h1 : m < 2 ^ 31)
    (h2 : (xs.length : Int) ≤ m) :
    takeN (putAll ⟨[], m, false⟩ xs) xs.length = (⟨[], m, false⟩, xs) := by
  rw [putAll_below_capacity xs ⟨[], m, false⟩ rfl h0
    (by show m < 2 ^ 64; omega)
    (by show 0 + xs.length ≤ m.toNat; omega)]
  simpa using takeN_drains xs m

/-- Witness for C3: three puts then three takes on a queue of capacity 5
return 1, 2, 3 in order. -/
theorem c3_witness :
    takeN (putAll (⟨[], 5, false⟩ : SyncQueue Nat) [1, 2, 3]) 3 =
      (⟨[], 5, false⟩, [1, 2, 3]) :=
  c3_fifo [1, 2, 3] 5 (by decide) (by decide) (by decide)

/-- Every operation other than setMaxSize preserves the capacity field
and the bound length at most capacity. -/
theorem applyQOp_preserves_bound {m : Int} (h0 : 0 ≤ m) (h1 : m < 2 ^ 64)
    (s : SyncQueue Nat) (op : QOp Nat)
    (hop : ∀ n, op ≠ QOp.setMaxSizeOp n)
    (hmax : s.queue_max_size = m)
    (hlen : s.my_queue.length ≤ m.toNat) :
    (applyQOp s op).queue_max_size = m ∧
    (applyQOp s op).my_queue.length ≤ m.toNat := by
  have hsz : intToSizeT m = m.toNat := intToSizeT_eq_toNat h0 h1
  cases op with
  | putOp x =>
    by_cases hstop : s.need_to_stop = true
    · simp [applyQOp, SyncQueue.putT, SyncQueue.putHelper, hstop, hmax, hlen]
    · simp only [Bool.not_eq_true] at hstop
      by_cases hfull : s.full = true
      · simp [applyQOp, SyncQueue.putT, SyncQueue.putHelper, hstop, hfull, hmax,
          hlen]
      · simp only [Bool.not_eq_true] at hfull
        have hne : s.my_queue.length ≠ m.toNat := by
          simp [SyncQueue.full, hmax, hsz] at hfull
          exact hfull
        simp [applyQOp, SyncQueue.putT, SyncQueue.putHelper, hstop, hfull, hmax]
        omega
  | takeOp b =>
    simp only [applyQOp]
    unfold SyncQueue.take
    split
    · simp [hmax, hlen]
    · split
      · simp [hmax, hlen]
      · split
        · simp [hmax, hlen]
        · split
          · simp [hmax, hlen]
          · rename_i x rest heq
            constructor
            · simp [hmax]
            · have hq : s.my_queue.length = rest.length + 1 := by
                rw [heq]
                simp
              simp
              omega
  | takeAllOp b =>
    simp only [applyQOp]
    unfold SyncQueue.takeAll
    split
    · simp [hmax, hlen]
    · split
      · simp [hmax, hlen]
      · split
        · simp [hmax, hlen]
        · simp [hmax]
  | clearOp => simp [applyQOp, SyncQueue.clear, hmax]
  | stopOp =>
    simp only [applyQOp]
    unfold SyncQueue.stop
    split <;> simp [hmax, hlen]
  | startOp =>
    simp only [applyQOp]
    unfold SyncQueue.start
    split <;> simp [hmax, hlen]
  | setMaxSizeOp n => exact absurd rfl (hop n)

/-- The bound is preserved along any run without setMaxSize. -/
theorem runOps_preserves_bound {m : Int} (h0 : 0 ≤ m) (h1 : m < 2 ^ 64)
    (ops : List (QOp Nat)) (s : SyncQueue Nat)
    (hops : ∀ op ∈ ops, ∀ n, op ≠ QOp.setMaxSizeOp n)
    (hmax : s.queue_max_size = m)
    (hlen : s.my_queue.length ≤ m.toNat) :
    (runOps s ops).queue_max_size = m ∧
    (runOps s ops).my_queue.length ≤ m.toNat := by
  induction ops generalizing s with
  | nil => exact ⟨hmax, hlen⟩
  | cons op ops ih =>
    have hstep := applyQOp_preserves_bound h0 h1 s op
      (hops op (by simp)) hmax hlen
    exact ih (applyQOp s op) (fun o ho n => hops o (by simp [ho]) n)
      hstep.1 hstep.2

/-- Claim C5 (amended): starting from an empty queue with a nonnegative
in-range capacity, every state reachable by put, take, takeAll, clear,
stop and start satisfies 0 at most length at most maxSize, stopped or
not; a setMaxSize call below the current length (excluded here and shown
in the counterexample) breaks the upper bound without evicting. -/
theorem c5_invariant (m : Int) (ops : List (QOp Nat)) (h0 : 0 ≤ m)
    (h1 : m < 2 ^ 31)
    (hops : ∀ op ∈ ops, ∀ n, op ≠ QOp.setMaxSizeOp n) :
    0 ≤ ((runOps (⟨[], m, false⟩ : SyncQueue Nat) ops).my_queue.length : Int) ∧
    ((runOps (⟨[], m, false⟩ : SyncQueue Nat) ops).my_queue.length : Int) ≤
      (runOps (⟨[], m, false⟩ : SyncQueue Nat) ops).queue_max_size := by
  have h := runOps_preserves_bound h0 (by omega) ops ⟨[], m, false⟩ hops rfl
    (by show 0 ≤ m.toNat; omega)
  refine ⟨by positivity, ?_⟩
  rw [h.1]
  omega

/-- Witness for C5: a put, a take and a stop on a queue of capacity 2. -/
theorem c5_witness :
    0 ≤ ((runOps (⟨[], 2, false⟩ : SyncQueue Nat)
      [QOp.putOp 1, QOp.takeOp true, QOp.stopOp]).my_queue.length : Int) ∧
    ((runOps (⟨[], 2, false⟩ : SyncQueue Nat)
      [QOp.putOp 1, QOp.takeOp true, QOp.stopOp]).my_queue.length : Int) ≤
      (runOps (⟨[], 2, false⟩ : SyncQueue Nat)
        [QOp.putOp 1, QOp.takeOp true, QOp.stopOp]).queue_max_size :=
  c5_invariant 2 [QOp.putOp 1, QOp.takeOp true, QOp.stopOp] (by decide)
    (by decide)
    (by
      intro op hop n
      simp only [List.mem_cons, List.not_mem_nil, or_false] at hop
      rcases hop with rfl | rfl | rfl <;> simp)

/-- Reachable state for the C5 counterexample: fill a queue of capacity 3
and then reduce the capacity to 2. -/
def c5State : SyncQueue Nat :=
  runOps ⟨[], 3, false⟩
    [QOp.putOp 1, QOp.putOp 2, QOp.putOp 3, QOp.setMaxSizeOp 2]

/-- Claim C5, counterexample: the state reached by put 1, put 2, put 3,
setMaxSize 2 is not stopped yet its length 3 exceeds its maxSize 2,
refuting the invariant as stated over the full operation set. -/
theorem c5_counterexample :
    c5State.need_to_stop = false ∧
    ¬ ((c5State.my_queue.length : Int) ≤ c5State.queue_max_size) := by
  refine ⟨rfl, by decide⟩

/-- Claim C6 (amended): the worker loop run() has no handler around the
task call, so an unhandled failure inside a task propagates out of the
loop and terminates the worker; the loop keeps iterating only across
tasks that do not raise: when no queued task fails, the worker executes
every task in order, does not crash, and drains the queue. -/
theorem c6_loop_survives_only_without_failures (ts : List TaskSpec) (m : Int)
    (fuel : Nat) (hok : ∀ t ∈ ts, t.fails = false)
    (hfuel : ts.length < fuel) :
    runWorkerLoop fuel ⟨ts, m, false⟩ =
      (ts.map TaskSpec.id, false, ⟨[], m, false⟩) := by
  induction ts generalizing fuel with
  | nil =>
    cases fuel with
    | zero => omega
    | succ f => simp [runWorkerLoop, SyncQueue.take, SyncQueue.emptyq]
  | cons t rest ih =>
    cases fuel with
    | zero => simp at hfuel
    | succ f =>
      have hf : t.fails = false := hok t (by simp)
      have hrest : ∀ u ∈ rest, u.fails = false := fun u hu => hok u (by simp [hu])
      simp only [runWorkerLoop, SyncQueue.take, SyncQueue.emptyq]
      simp [hf, ih f hrest (by simp at hfuel; omega)]

/-- Witness for C6: two non-failing tasks are both executed in order and
the loop ends alive with the queue drained. -/
theorem c6_witness :
    runWorkerLoop 3 ⟨[⟨1, false⟩, ⟨2, false⟩], 4, false⟩ =
      ([1, 2], false, ⟨[], 4, false⟩) :=
  c6_loop_survives_only_without_failures [⟨1, false⟩, ⟨2, false⟩] 4 3
    (by decide) (by decide)

/-- Claim C6, counterexample: with a failing task at the head and a good
task behind it, the failure propagates out of run(): the worker crashes
after executing only the first task and the second task is never taken,
refuting the claim that the loop continues iterating after an unhandled
task failure. -/
theorem c6_counterexample :
    runWorkerLoop 5 ⟨[⟨1, true⟩, ⟨2, false⟩], 5, false⟩ =
      ([1], true, ⟨[⟨2, false⟩], 5, false⟩) :=
  rfl

/-- The task a worker currently holds for execution. -/
def heldTasks : WState → List Nat
  | WState.exec t => [t]
  | _ => []

/-- The task ids the main thread has still to submit. -/
def pendingTasks : MState → List Nat
  | MState.submitting rest => rest
  | _ => []

/-- All task ids present anywhere in the C2 scenario: already executed,
queued, held by a worker, or not yet submitted. -/
def poolTasks (p : PoolState) : List Nat :=
  p.executed ++ p.tasks.my_queue ++ heldTasks p.w1 ++ heldTasks p.w2 ++
    pendingTasks p.mainT

/-- stop never touches the queued elements. -/
theorem stop_preserves_queue {T : Type} (s : SyncQueue T) :
    ((s.stop).1).my_queue = s.my_queue := by
  unfold SyncQueue.stop
  split <;> rfl

/-- A put call that returned either dropped the element on a stopped
queue or appended it to the tail. -/
theorem putHelper_cases {T : Type} (s : SyncQueue T) (x : T)
    (r : SyncQueue.PutResult T) (h : s.putHelper x = some r) :
    (s.need_to_stop = true ∧ r = ⟨s, false, []⟩) ∨
    (s.need_to_stop = false ∧
      r = ⟨⟨s.my_queue ++ [x], s.queue_max_size, s.need_to_stop⟩, true,
        [WakeEvent.notifyOne CV.notEmpty]⟩) := by
  unfold SyncQueue.putHelper at h
  split at h
  · exact absurd h (by simp)
  · split at h
    · rename_i hstop
      simp only [Option.some.injEq] at h
      exact Or.inl ⟨hstop, h.symm⟩
    · rename_i h1 hstop
      simp only [Option.some.injEq] at h
      simp only [Bool.not_eq_true] at hstop
      exact Or.inr ⟨hstop, h.symm⟩

/-- A take call that returned either failed leaving the state unchanged
or removed the head element. -/
theorem take_cases {T : Type} (s : SyncQueue T) (b : Bool)
    (r : SyncQueue.TakeResult T) (h : s.take b = some r) :
    (r = ⟨s, none, false, []⟩) ∨
    (∃ x rest, s.my_queue = x :: rest ∧
      r = ⟨⟨rest, s.queue_max_size, s.need_to_stop⟩, some x, true,
        [WakeEvent.notifyOne CV.notFull]⟩) := by
  unfold SyncQueue.take at h
  split at h
  · exact absurd h (by simp)
  · split at h
    · simp only [Option.some.injEq] at h
      exact Or.inl h.symm
    · split at h
      · simp only [Option.some.injEq] at h
        exact Or.inl h.symm
      · split at h
        · simp only [Option.some.injEq] at h
          exact Or.inl h.symm
        · rename_i x rest heq
          simp only [Option.some.injEq] at h
          exact Or.inr ⟨x, rest, heq, h.symm⟩

/-- A worker transition never duplicates a task id: the count of every id
over executed plus queued plus held never grows. -/
theorem workerStep_count (sh : Bool) (q : SyncQueue Nat) (w : WState)
    (ex : List Nat) (q2 : SyncQueue Nat) (w2 : WState) (ex2 : List Nat)
    (h : workerStep sh q w ex = some (q2, w2, ex2)) (a : Nat) :
    (ex2 ++ q2.my_queue ++ heldTasks w2).count a ≤
      (ex ++ q.my_queue ++ heldTasks w).count a := by
  cases w with
  | atLoop =>
    simp only [workerStep, Option.some.injEq, Prod.mk.injEq] at h
    obtain ⟨rfl, rfl, rfl⟩ := h
    cases sh <;> simp [heldTasks]
  | atTake =>
    simp only [workerStep] at h
    cases htake : q.take true with
    | none =>
      rw [htake] at h
      exact absurd h (by simp)
    | some r =>
      rw [htake] at h
      rcases take_cases q true r htake with hr | ⟨x, rest, hq, hr⟩
      · rw [hr] at h
        simp only [Option.some.injEq, Prod.mk.injEq] at h
        obtain ⟨rfl, rfl, rfl⟩ := h
        simp [heldTasks]
      · rw [hr] at h
        simp only [Option.some.injEq, Prod.mk.injEq] at h
        obtain ⟨rfl, rfl, rfl⟩ := h
        rw [hq]
        have hxr : x :: rest = [x] ++ rest := rfl
        rw [hxr]
        simp only [heldTasks, List.count_append]
        omega
  | exec t =>
    simp only [workerStep, Option.some.injEq, Prod.mk.injEq] at h
    obtain ⟨rfl, rfl, rfl⟩ := h
    simp only [heldTasks, List.count_append, List.count_nil]
    omega
  | exited => exact absurd h (by simp [workerStep])

/-- No transition of the C2 scenario increases the count of any task id
over all locations; a submit onto a stopped queue strictly drops it. -/
theorem step_count (p : PoolState) (t : Tid) (p2 : PoolState)
    (h : step p t = some p2) (a : Nat) :
    (poolTasks p2).count a ≤ (poolTasks p).count a := by
  cases t with
  | mainT =>
    simp only [step, mainStep] at h
    cases hm : p.mainT <;> rw [hm] at h
    case submitting rest =>
      cases rest with
      | nil =>
        simp only [mainGo, Option.some.injEq] at h
        subst h
        simp [poolTasks, pendingTasks, hm]
      | cons k rest2 =>
        simp only [mainGo] at h
        cases hput : p.tasks.putHelper k with
        | none =>
          rw [hput] at h
          exact absurd h (by simp)
        | some r =>
          rw [hput] at h
          simp only [Option.some.injEq] at h
          subst h
          rcases putHelper_cases p.tasks k r hput with ⟨hstop, hr⟩ | ⟨hstop, hr⟩
          · rw [hr]
            simp only [poolTasks, pendingTasks, hm, List.count_append]
            have hsub := List.Sublist.count_le (List.sublist_cons_self k rest2) a
            omega
          · rw [hr]
            have hkr : k :: rest2 = [k] ++ rest2 := rfl
            simp only [poolTasks, pendingTasks, hm, hkr, List.count_append]
            omega
    case stopFlag =>
      simp only [mainGo, Option.some.injEq] at h
      subst h
      simp [poolTasks, pendingTasks, hm]
    case stopQueue =>
      simp only [mainGo, Option.some.injEq] at h
      subst h
      simp [poolTasks, pendingTasks, hm, stop_preserves_queue]
    case joining1 =>
      simp only [mainGo] at h
      split at h
      · simp only [Option.some.injEq] at h
        subst h
        simp [poolTasks, pendingTasks, hm]
      · exact absurd h (by simp)
    case joining2 =>
      simp only [mainGo] at h
      split at h
      · simp only [Option.some.injEq] at h
        subst h
        simp [poolTasks, pendingTasks, hm]
      · exact absurd h (by simp)
    case done => exact absurd h (by simp [mainGo])
  | w1T =>
    simp only [step] at h
    cases hw : workerStep p.shutdown p.tasks p.w1 p.executed with
    | none => rw [hw] at h; exact absurd h (by simp)
    | some r =>
      rw [hw] at h
      simp only [Option.map_some', Option.some.injEq] at h
      subst h
      have hc := workerStep_count p.shutdown p.tasks p.w1 p.executed
        r.1 r.2.1 r.2.2 (by rw [hw]) a
      simp only [poolTasks, List.count_append] at hc ⊢
      omega
  | w2T =>
    simp only [step] at h
    cases hw : workerStep p.shutdown p.tasks p.w2 p.executed with
    | none => rw [hw] at h; exact absurd h (by simp)
    | some r =>
      rw [hw] at h
      simp only [Option.map_some', Option.some.injEq] at h
      subst h
      have hc := workerStep_count p.shutdown p.tasks p.w2 p.executed
        r.1 r.2.1 r.2.2 (by rw [hw]) a
      simp only [poolTasks, List.count_append] at hc ⊢
      omega

/-- The join barrier property: once the main thread is past the join of a
worker, that worker has exited. -/
def joinInv (p : PoolState) : Prop :=
  ((p.mainT = MState.joining2 ∨ p.mainT = MState.done) → p.w1 = WState.exited) ∧
  (p.mainT = MState.done → p.w2 = WState.exited)

/-- Every transition preserves the join barrier property: the main thread
reaches joining2 only with worker one exited and done only with worker
two exited as well, and an exited worker never steps again. -/
theorem step_joinInv (p : PoolState) (t : Tid) (p2 : PoolState)
    (h : step p t = some p2) (hj : joinInv p) : joinInv p2 := by
  cases t with
  | mainT =>
    simp only [step, mainStep] at h
    cases hm : p.mainT <;> rw [hm] at h
    case submitting rest =>
      cases rest with
      | nil =>
        simp only [mainGo, Option.some.injEq] at h
        subst h
        exact ⟨by intro hc; simp at hc, by intro hc; simp at hc⟩
      | cons k rest2 =>
        simp only [mainGo] at h
        cases hput : p.tasks.putHelper k with
        | none => rw [hput] at h; exact absurd h (by simp)
        | some r =>
          rw [hput] at h
          simp only [Option.some.injEq] at h
          subst h
          exact ⟨by intro hc; simp at hc, by intro hc; simp at hc⟩
    case stopFlag =>
      simp only [mainGo, Option.some.injEq] at h
      subst h
      exact ⟨by intro hc; simp at hc, by intro hc; simp at hc⟩
    case stopQueue =>
      simp only [mainGo, Option.some.injEq] at h
      subst h
      exact ⟨by intro hc; simp at hc, by intro hc; simp at hc⟩
    case joining1 =>
      simp only [mainGo] at h
      split at h
      · rename_i hw1
        simp only [Option.some.injEq] at h
        subst h
        exact ⟨fun _ => hw1, by intro hc; simp at hc⟩
      · exact absurd h (by simp)
    case joining2 =>
      simp only [mainGo] at h
      split at h
      · rename_i hw2
        simp only [Option.some.injEq] at h
        subst h
        exact ⟨fun _ => hj.1 (Or.inl hm), fun _ => hw2⟩
      · exact absurd h (by simp)
    case done => exact absurd h (by simp [mainGo])
  | w1T =>
    simp only [step] at h
    cases hw : workerStep p.shutdown p.tasks p.w1 p.executed with
    | none => rw [hw] at h; exact absurd h (by simp)
    | some r =>
      rw [hw] at h
      simp only [Option.map_some', Option.some.injEq] at h
      subst h
      constructor
      · intro hc
        have hx := hj.1 hc
        rw [hx] at hw
        exact absurd hw (by simp [workerStep])
      · intro hc
        exact hj.2 hc
  | w2T =>
    simp only [step] at h
    cases hw : workerStep p.shutdown p.tasks p.w2 p.executed with
    | none => rw [hw] at h; exact absurd h (by simp)
    | some r =>
      rw [hw] at h
      simp only [Option.map_some', Option.some.injEq] at h
      subst h
      constructor
      · intro hc
        exact hj.1 hc
      · intro hc
        have hx := hj.2 hc
        rw [hx] at hw
        exact absurd hw (by simp [workerStep])

/-- Counts of task ids never grow along any schedule. -/
theorem runTrace_count (ts : List Tid) (p : PoolState) (a : Nat) :
    (poolTasks (runTrace p ts)).count a ≤ (poolTasks p).count a := by
  induction ts generalizing p with
  | nil => exact Nat.le_refl _
  | cons t ts ih =>
    show (poolTasks (runTrace ((step p t).getD p) ts)).count a ≤ _
    cases h : step p t with
    | none => exact ih p
    | some p2 => exact Nat.le_trans (ih p2) (step_count p t p2 h a)

/-- The join barrier property holds along any schedule. -/
theorem runTrace_joinInv (ts : List Tid) (p : PoolState) (hj : joinInv p) :
    joinInv (runTrace p ts) := by
  induction ts generalizing p with
  | nil => exact hj
  | cons t ts ih =>
    show joinInv (runTrace ((step p t).getD p) ts)
    cases h : step p t with
    | none => exact ih p hj
    | some p2 => exact ih p2 (step_joinInv p t p2 h hj)

/-- Claim C2 (amended): in the scenario with two workers, capacity one
and five submitted no-op tasks, whenever shutdownNow has returned both
workers have exited and been joined, and every executed task id was
executed at most once and is one of the five submitted ids; but tasks
still queued when the stop takes effect are never executed, so
shutdownNow may return with fewer than five tasks executed. -/
theorem c2_shutdown_join_barrier (ts : List Tid)
    (h : (runTrace poolInit ts).mainT = MState.done) :
    (runTrace poolInit ts).w1 = WState.exited ∧
    (runTrace poolInit ts).w2 = WState.exited ∧
    (runTrace poolInit ts).executed.Nodup ∧
    ∀ a ∈ (runTrace poolInit ts).executed, a ∈ [1, 2, 3, 4, 5] := by
  have hj := runTrace_joinInv ts poolInit
    (by exact ⟨by intro hc; simp [poolInit] at hc, by intro hc; simp [poolInit] at hc⟩)
  have hcnt : ∀ a : Nat, ((runTrace poolInit ts).executed).count a ≤
      List.count a [1, 2, 3, 4, 5] := by
    intro a
    have h1 := runTrace_count ts poolInit a
    have h2 : poolTasks poolInit = [1, 2, 3, 4, 5] := rfl
    rw [h2] at h1
    have h3 : ((runTrace poolInit ts).executed).count a ≤
        (poolTasks (runTrace poolInit ts)).count a := by
      simp only [poolTasks, List.count_append]
      omega
    omega
  refine ⟨hj.1 (Or.inr h), hj.2 h, ?_, ?_⟩
  · rw [List.nodup_iff_count_le_one]
    intro a
    exact Nat.le_trans (hcnt a)
      (List.nodup_iff_count_le_one.mp (by decide) a)
  · intro a ha
    have hpos : 0 < ((runTrace poolInit ts).executed).count a :=
      List.count_pos_iff.mpr ha
    exact List.count_pos_iff.mp (Nat.lt_of_lt_of_le hpos (hcnt a))

/-- A concrete schedule of the C2 scenario: worker one executes tasks 1
to 4; after the fifth submit the main thread runs shutdownNow before any
worker takes task 5; both workers observe the flag and exit, the joins
return, and task 5 is still in the stopped queue, never executed. -/
def c2Trace : List Tid :=
  [Tid.mainT, Tid.w1T, Tid.w1T, Tid.w1T,
   Tid.mainT, Tid.w1T, Tid.w1T, Tid.w1T,
   Tid.mainT, Tid.w1T, Tid.w1T, Tid.w1T,
   Tid.mainT, Tid.w1T, Tid.w1T, Tid.w1T,
   Tid.mainT, Tid.mainT, Tid.mainT, Tid.mainT,
   Tid.w1T, Tid.w2T, Tid.mainT, Tid.mainT]

set_option maxRecDepth 8192 in
/-- Claim C2, counterexample: along the schedule c2Trace, shutdownNow has
returned (main thread done, both workers joined) while only tasks 1 to 4
were executed; task 5 sits in the stopped queue and was never executed,
refuting the claim that shutdownNow returns only after all five tasks
have been executed exactly once. -/
theorem c2_counterexample :
    (runTrace poolInit c2Trace).mainT = MState.done ∧
    (runTrace poolInit c2Trace).executed = [1, 2, 3, 4] ∧
    (runTrace poolInit c2Trace).tasks.my_queue = [5] ∧
    (runTrace poolInit c2Trace).tasks.need_to_stop = true := by
  refine ⟨rfl, rfl, rfl, rfl⟩

set_option maxRecDepth 8192 in
/-- Witness for C2: the amended theorem applied to the schedule c2Trace,
on which the main thread is done. -/
theorem c2_witness :
    (runTrace poolInit c2Trace).w1 = WState.exited ∧
    (runTrace poolInit c2Trace).w2 = WState.exited ∧
    (runTrace poolInit c2Trace).executed.Nodup ∧
    ∀ a ∈ (runTrace poolInit c2Trace).executed, a ∈ [1, 2, 3, 4, 5] :=
  c2_shutdown_join_barrier c2Trace rfl

end Acht
